import Mathlib

/-
  Shallow embedding of the Go HTTP server in this repository (the complete
  variant of main.go: router, endpoint handlers, request parser, response
  writer and per-connection loop).

  Go strings are modelled as lists of characters (`Str`); Go's `len` on a
  string is UTF-8 byte length (`golen`).  Go maps from string to string are
  association lists with insert-overwrite semantics (`mapSet`, `mapGet`),
  matching last-occurrence-wins behaviour of repeated assignments.
  The file system and the gzip codec are external collaborators: they enter
  as components of an `Env` record (a read function, a write-success
  predicate and a compression function).
-/

abbrev Str : Type := List Char

/-- Coerce a Lean string literal into the embedding's string type. -/
def gs (s : String) : Str := s.data

/-- UTF-8 byte length: the meaning of Go's `len` on a string. -/
def golen (s : Str) : Nat := s.foldl (fun n c => n + c.utf8Size) 0

/-- Index of the first occurrence of `sep` inside `s` (Go `strings.Index`). -/
def findSub (sep : Str) : Str → Option Nat
  | [] => if sep.isPrefixOf ([] : Str) then some 0 else none
  | c :: cs =>
    if sep.isPrefixOf (c :: cs) then some 0
    else (findSub sep cs).map (fun i => i + 1)

/-- Go `strings.Contains s sub`. -/
def strContains (s sub : Str) : Bool := (findSub sub s).isSome

/-- Fuelled worker for Go `strings.Split` with a non-empty separator:
    repeatedly cut at the first occurrence of the separator. -/
def goSplitF (sep : Str) : Nat → Str → List Str
  | 0, s => [s]
  | Nat.succ f, s =>
    match findSub sep s with
    | none => [s]
    | some i => s.take i :: goSplitF sep f (s.drop (i + sep.length))

/-- Go `strings.Split s sep` for a non-empty separator (the only way the
    program calls it).  The fuel `s.length + 1` is always sufficient because
    every cut consumes at least one character of `s`. -/
def goSplit (sep s : Str) : List Str := goSplitF sep (s.length + 1) s

/-- Split at the first occurrence of `sep`: the part before and the part
    after, or `none` when `sep` does not occur. -/
def splitFirst (sep s : Str) : Option (Str × Str) :=
  match findSub sep s with
  | none => none
  | some i => some (s.take i, s.drop (i + sep.length))

/-- Go `strings.TrimPrefix`. -/
def trimPref (s p : Str) : Str := if p.isPrefixOf s then s.drop p.length else s

/-- Go map assignment `m[k] = v` on an association list: overwrite in place,
    append when absent. -/
def mapSet (m : List (Str × Str)) (k v : Str) : List (Str × Str) :=
  match m with
  | [] => [(k, v)]
  | kv :: rest => if kv.1 = k then (k, v) :: rest else kv :: mapSet rest k v

/-- Go two-valued map read `v, ok := m[k]`. -/
def mapGet? (m : List (Str × Str)) (k : Str) : Option Str :=
  match m with
  | [] => none
  | kv :: rest => if kv.1 = k then some kv.2 else mapGet? rest k

/-- Go one-valued map read `m[k]` (zero value `""` when absent). -/
def mapGet (m : List (Str × Str)) (k : Str) : Str := (mapGet? m k).getD []

/-- Decimal rendering of a natural number, the effect of Go's
    `fmt.Sprintf` with a %d verb on a non-negative int. -/
def natToStrF : Nat → Nat → Str
  | 0, _ => []
  | Nat.succ f, n =>
    if n < 10 then [Char.ofNat (48 + n)]
    else natToStrF f (n / 10) ++ [Char.ofNat (48 + n % 10)]

def natToStr (n : Nat) : Str := natToStrF (n + 1) n

/- ===================  Data model (struct HTTPRequest etc.)  =============== -/

structure HTTPRequest where
  method : Str
  path : Str
  headers : List (Str × Str)
  body : Str
deriving DecidableEq

/-- A response as a handler assembles it before serialization: the status
    string, the extra headers passed to `sendResponse`, and the body. -/
structure Resp where
  status : Str
  headers : List (Str × Str)
  body : Str
deriving DecidableEq

/-- External collaborators: the configured root directory, the file system
    (read result by path, write success by path and contents) and the gzip
    codec, all black boxes to the core. -/
structure Env where
  dir : Str
  readFile : Str → Option Str
  writeOk : Str → Str → Bool
  gzipC : Str → Str

abbrev Handler : Type := HTTPRequest → Env → Resp

/-- struct Route; `isPref` is the source's IsPrefix field. -/
structure Route where
  method : Str
  path : Str
  handler : Handler
  isPref : Bool

/- ===================  filepath.Join / filepath.Clean  ===================== -/

/-- One step of the element processing inside Go `filepath.Clean` (Unix
    rules): `..` pops the previous element when there is a poppable one,
    is dropped at the root, and is kept when a relative path starts with
    parent references. -/
def cleanStep (rooted : Bool) (acc : List Str) (seg : Str) : List Str :=
  if seg = gs ".." then
    match acc.getLast? with
    | some t => if t = gs ".." then acc ++ [seg] else acc.dropLast
    | none => if rooted then [] else [seg]
  else acc ++ [seg]

/-- Go `filepath.Clean` on Unix: purely lexical processing of `.`, `..`,
    and repeated separators. -/
def filepathClean (p : Str) : Str :=
  let rooted := (gs "/").isPrefixOf p
  let segs := (goSplit (gs "/") p).filter (fun s => !(s == []) && !(s == gs "."))
  let out := segs.foldl (cleanStep rooted) []
  if rooted then gs "/" ++ List.intercalate (gs "/") out
  else if out = [] then gs "." else List.intercalate (gs "/") out

/-- Go `filepath.Join a b`: drop empty elements, join with the separator,
    then Clean; empty when both elements are empty. -/
def filepathJoin (a b : Str) : Str :=
  let elems := List.filter (fun s => !(s == [])) [a, b]
  if elems = [] then [] else filepathClean (List.intercalate (gs "/") elems)

/- ===================  Router  ============================================ -/

/-- Router.Register: append a Route; a pattern ending in "/" is a prefix
    route (`strings.HasSuffix(path, "/")`). -/
def register (r : List Route) (method path : Str) (h : Handler) : List Route :=
  r ++ [{ method := method, path := path, handler := h,
          isPref := (gs "/").isSuffixOf path }]

/-- The path test inside Router.ServeRequest: prefix routes use
    `strings.HasPrefix`, exact routes use string equality. -/
def routeMatches (rt : Route) (p : Str) : Bool :=
  if rt.isPref then rt.path.isPrefixOf p else p == rt.path

/-- The fixed fallback response of Router.ServeRequest. -/
def resp404 : Resp := { status := gs "404 Not Found", headers := [], body := [] }

/-- Router.ServeRequest as a function from the route table to the response
    the chosen handler produces (the 404 fallback when nothing matches). -/
def serveRequest : List Route → HTTPRequest → Env → Resp
  | [], _, _ => resp404
  | rt :: rest, req, env =>
    if rt.method == req.method && routeMatches rt req.path then rt.handler req env
    else serveRequest rest req env

/- ===================  Handlers  ========================================== -/

def rootHandler : Handler := fun _ _ =>
  { status := gs "200 OK", headers := [], body := [] }

def echoHandler : Handler := fun req env =>
  let content := trimPref req.path (gs "/echo/")
  let encoding := mapGet req.headers (gs "Accept-Encoding")
  if strContains encoding (gs "gzip") then
    { status := gs "200 OK",
      headers := [(gs "Content-Type", gs "text/plain"),
                  (gs "Content-Encoding", gs "gzip")],
      body := env.gzipC content }
  else
    { status := gs "200 OK",
      headers := [(gs "Content-Type", gs "text/plain")],
      body := content }

def userAgentHandler : Handler := fun req _ =>
  { status := gs "200 OK",
    headers := [(gs "Content-Type", gs "text/plain")],
    body := mapGet req.headers (gs "User-Agent") }

def optionsHandler : Handler := fun _ _ =>
  { status := gs "204 No Content",
    headers := [(gs "Access-Control-Allow-Origin", gs "*"),
                (gs "Access-Control-Allow-Methods", gs "GET, POST, OPTIONS"),
                (gs "Access-Control-Allow-Headers",
                 gs "Content-Type, Accept, Accept-Encoding, X-Requested-With")],
    body := [] }

def getFileHandler : Handler := fun req env =>
  let fileName := trimPref req.path (gs "/files/")
  let fullPath := filepathJoin env.dir fileName
  match env.readFile fullPath with
  | none => { status := gs "404 Not Found", headers := [], body := [] }
  | some fileData =>
    { status := gs "200 OK",
      headers := [(gs "Content-Type", gs "application/octet-stream")],
      body := fileData }

def createFileHandler : Handler := fun req env =>
  let fileName := trimPref req.path (gs "/files/")
  let fullPath := filepathJoin env.dir fileName
  if env.writeOk fullPath req.body then
    { status := gs "201 Created", headers := [], body := [] }
  else
    { status := gs "500 Internal Server Error", headers := [], body := [] }

/-- The route table built in main, in registration order. -/
def mainRoutes : List Route :=
  register
    (register
      (register
        (register
          (register
            (register [] (gs "GET") (gs "/") rootHandler)
            (gs "GET") (gs "/echo/") echoHandler)
          (gs "GET") (gs "/user-agent") userAgentHandler)
        (gs "GET") (gs "/files/") getFileHandler)
      (gs "POST") (gs "/files/") createFileHandler)
    (gs "OPTIONS") (gs "/") optionsHandler

/- ===================  Request parser  ==================================== -/

def crlf : Str := gs "\r\n"
def crlf2 : Str := gs "\r\n\r\n"

/-- The header-parsing loop of parseRequest: a line is a header iff it
    contains ": "; key is everything before the first occurrence, value
    everything after; later duplicates overwrite earlier ones. -/
def parseHeaderLines (lines : List Str) : List (Str × Str) :=
  lines.foldl
    (fun m line =>
      match splitFirst (gs ": ") line with
      | some kv => mapSet m kv.1 kv.2
      | none => m)
    []

/-- parseRequest: split the raw bytes on "CRLF CRLF" (every occurrence, as
    Go `strings.Split` does), take parts[0] as the header block and
    parts[1] (when it exists) as the body, split the header block into
    CRLF lines, split the first line on spaces, and reject when fewer than
    two tokens result. -/
def parseRequest (raw : Str) : Option HTTPRequest :=
  let parts := goSplit crlf2 raw
  let headerPart := parts.headD []
  let body := (parts.drop 1).headD []
  let lines := goSplit crlf headerPart
  let requestLine := goSplit (gs " ") (lines.headD [])
  if requestLine.length < 2 then none
  else some
    { method := requestLine.headD [],
      path := (requestLine.drop 1).headD [],
      headers := parseHeaderLines (lines.drop 1),
      body := body }

/- ===================  Response writer  =================================== -/

/-- The CORS-defaulting block at the top of sendResponse: each of the three
    headers is set only when the caller did not supply it. -/
def addCORSDefaults (headers : List (Str × Str)) : List (Str × Str) :=
  let h1 := if (mapGet? headers (gs "Access-Control-Allow-Origin")).isSome
    then headers else mapSet headers (gs "Access-Control-Allow-Origin") (gs "*")
  let h2 := if (mapGet? h1 (gs "Access-Control-Allow-Methods")).isSome
    then h1 else mapSet h1 (gs "Access-Control-Allow-Methods") (gs "GET, POST, OPTIONS")
  if (mapGet? h2 (gs "Access-Control-Allow-Headers")).isSome
    then h2
    else mapSet h2 (gs "Access-Control-Allow-Headers")
      (gs "Content-Type, Accept, Accept-Encoding, X-Requested-With")

/-- The list of lines sendResponse accumulates before joining with CRLF:
    status line, one line per header-map entry, the computed
    Content-Length, and a Connection close echo when the request asked to
    close. -/
def responseLines (status : Str) (headers : List (Str × Str)) (body : Str)
    (req : HTTPRequest) : List Str :=
  ([gs "HTTP/1.1 " ++ status]
    ++ (addCORSDefaults headers).map (fun kv => kv.1 ++ gs ": " ++ kv.2)
    ++ [gs "Content-Length: " ++ natToStr (golen body)])
  ++ (if mapGet? req.headers (gs "Connection") = some (gs "close")
      then [gs "Connection: close"] else [])

/-- sendResponse: the serialized bytes written to the connection. -/
def sendResponse (status : Str) (headers : List (Str × Str)) (body : Str)
    (req : HTTPRequest) : Str :=
  List.intercalate crlf (responseLines status headers body req) ++ crlf2 ++ body

/-- Route a parsed request and serialize the resulting response: the bytes
    one loop iteration writes for a valid request. -/
def serveWire (routes : List Route) (req : HTTPRequest) (env : Env) : Str :=
  let r := serveRequest routes req env
  sendResponse r.status r.headers r.body req

/- ===================  Connection loop  =================================== -/

/-- What one `conn.Read` in handleConnection can yield: `n` bytes of data
    (`n = 0` allowed), end of stream, or a read error. -/
inductive RecvEvent
  | data (raw : Str)
  | eofSig
  | errSig

/-- The two control states of the loop in handleConnection: back to the
    blocking read, or out of the loop (the deferred Close runs). -/
inductive ConnState
  | reading
  | closed
deriving DecidableEq

/-- One iteration of the loop in handleConnection: the responses written
    during the iteration and the state the loop moves to. -/
def connStep (routes : List Route) (env : Env) (ev : RecvEvent) :
    List Str × ConnState :=
  match ev with
  | RecvEvent.eofSig => ([], ConnState.closed)
  | RecvEvent.errSig => ([], ConnState.closed)
  | RecvEvent.data raw =>
    if raw = [] then ([], ConnState.closed)
    else
      match parseRequest raw with
      | none => ([], ConnState.reading)
      | some req =>
        ([serveWire routes req env],
         if mapGet? req.headers (gs "Connection") = some (gs "close")
         then ConnState.closed else ConnState.reading)

/- ===================  Spec-side observables  ============================= -/

/-- Everything strictly before the first occurrence of CRLF CRLF (the whole
    input when the separator is absent): the header block of the spec. -/
def headerBlockOf (raw : Str) : Str :=
  match splitFirst crlf2 raw with
  | none => raw
  | some pr => pr.1

/-- Everything strictly after the first occurrence of CRLF CRLF, the empty
    string when the separator is absent: the body as the spec words it. -/
def remainderAfterFirst (raw : Str) : Str :=
  match splitFirst crlf2 raw with
  | none => []
  | some pr => pr.2

/-- The segment between the first and the second occurrence of CRLF CRLF
    (up to the end when there is no second occurrence): the body the code
    actually extracts. -/
def interBlockBody (raw : Str) : Str :=
  match splitFirst crlf2 raw with
  | none => []
  | some pr =>
    match splitFirst crlf2 pr.2 with
    | none => pr.2
    | some pr2 => pr2.1

/-- Everything strictly before the first CRLF (the whole string when it has
    no CRLF): the first CRLF-separated line. -/
def firstLineOf (s : Str) : Str :=
  match splitFirst crlf s with
  | none => s
  | some pr => pr.1

/-- The request-line tokens of an input: its first CRLF-separated line split
    on single spaces. -/
def requestTokens (raw : Str) : List Str := goSplit (gs " ") (firstLineOf raw)

/-- The separator occurs in the string at the given index. -/
def occursAt (sep s : Str) (i : Nat) : Prop := sep <+: s.drop i

/-- The route-matching test exactly as the specification words it: the
    method must be equal as a string, and the path must equal the pattern
    for an exact route and extend it for a prefix route. -/
def specRouteMatch (req : HTTPRequest) (rt : Route) : Bool :=
  rt.method == req.method &&
    (if rt.isPref then rt.path.isPrefixOf req.path else req.path == rt.path)

/-- Dispatch as the specification words it: the first route in registration
    order that matches wins; otherwise the fixed 404 response. -/
def specDispatch (routes : List Route) (req : HTTPRequest) (env : Env) : Resp :=
  match routes.find? (specRouteMatch req) with
  | some rt => rt.handler req env
  | none => resp404

/-- A concrete environment with an identity compressor, an empty file
    system and always-failing writes, for evaluating the model at concrete
    inputs. -/
def envDemo : Env :=
  { dir := gs ".", readFile := fun _ => none,
    writeOk := fun _ _ => false, gzipC := fun s => s }

/-- A concrete environment whose compressor tags its input, so that the
    compressed body is distinguishable from the plain one. -/
def envTag : Env :=
  { dir := gs ".", readFile := fun _ => none,
    writeOk := fun _ _ => false, gzipC := fun s => gs "gz:" ++ s }

/-- A concrete environment rooted at /tmp/data whose file system has
    exactly one readable file, /etc/passwd, OUTSIDE that root, and accepts
    exactly one write, of "pwn" to /etc/passwd. -/
def envLeak : Env :=
  { dir := gs "/tmp/data",
    readFile := fun p => if p == gs "/etc/passwd" then some (gs "SECRET") else none,
    writeOk := fun p b => p == gs "/etc/passwd" && b == gs "pwn",
    gzipC := fun s => s }

/-- A concrete environment rooted at /srv serving one file f.txt. -/
def envSrv : Env :=
  { dir := gs "/srv",
    readFile := fun p => if p == gs "/srv/f.txt" then some (gs "abc") else none,
    writeOk := fun p _ => p == gs "/srv/new.txt",
    gzipC := fun s => s }

/- ===================  Lemma library  ==================================== -/

theorem findSub_occurs {sep s : Str} {i : Nat} (h : findSub sep s = some i) :
    occursAt sep s i := by
  induction s generalizing i with
  | nil =>
    simp only [findSub] at h
    split at h
    · next hp =>
      cases h
      simpa [occursAt] using List.isPrefixOf_iff_prefix.mp hp
    · cases h
  | cons c cs ih =>
    simp only [findSub] at h
    split at h
    · next hp =>
      cases h
      simpa [occursAt] using List.isPrefixOf_iff_prefix.mp hp
    · next hp =>
      cases hfs : findSub sep cs with
      | none => rw [hfs] at h; cases h
      | some j =>
        rw [hfs] at h
        simp only [Option.map] at h
        cases h
        simpa [occursAt] using ih hfs

theorem findSub_min {sep s : Str} {i : Nat} (h : findSub sep s = some i) :
    ∀ k, k < i → ¬ occursAt sep s k := by
  induction s generalizing i with
  | nil =>
    simp only [findSub] at h
    split at h
    · cases h; intro k hk; omega
    · cases h
  | cons c cs ih =>
    simp only [findSub] at h
    split at h
    · cases h; intro k hk; omega
    · next hp =>
      cases hfs : findSub sep cs with
      | none => rw [hfs] at h; cases h
      | some j =>
        rw [hfs] at h
        simp only [Option.map] at h
        cases h
        intro k hk
        cases k with
        | zero =>
          intro hocc
          exact hp ( List.isPrefixOf_iff_prefix.mpr (by simpa [occursAt] using hocc))
        | succ k =>
          intro hocc
          exact ih hfs k (by omega) (by simpa [occursAt] using hocc)

theorem findSub_none {sep s : Str} (hsep : sep ≠ []) (h : findSub sep s = none) :
    ∀ k, ¬ occursAt sep s k := by
  induction s with
  | nil =>
    intro k hocc
    simp only [occursAt, List.drop_nil] at hocc
    have := hocc.length_le
    simp only [List.length_nil, Nat.le_zero] at this
    exact hsep (List.eq_nil_of_length_eq_zero this)
  | cons c cs ih =>
    simp only [findSub] at h
    split at h
    · cases h
    · next hp =>
      have hcs : findSub sep cs = none := by
        cases hfs : findSub sep cs with
        | none => rfl
        | some j => rw [hfs] at h; cases h
      intro k
      cases k with
      | zero =>
        intro hocc
        exact hp ( List.isPrefixOf_iff_prefix.mpr (by simpa [occursAt] using hocc))
      | succ k =>
        intro hocc
        exact ih hcs k (by simpa [occursAt] using hocc)

theorem occursAt_add_length_le {sep s : Str} {i : Nat} (hsep : sep ≠ [])
    (h : occursAt sep s i) : i + sep.length ≤ s.length := by
  have h1 : sep.length ≤ s.length - i := by
    have := h.length_le
    simpa [List.length_drop] using this
  have h2 : 0 < sep.length := List.length_pos.mpr hsep
  omega

theorem findSub_complete {sep s : Str} {k : Nat} (hsep : sep ≠ [])
    (hocc : occursAt sep s k) : ∃ i, findSub sep s = some i ∧ i ≤ k := by
  cases hfs : findSub sep s with
  | none => exact absurd hocc (findSub_none hsep hfs k)
  | some i =>
    refine ⟨i, rfl, ?_⟩
    by_contra hlt
    exact findSub_min hfs k (by omega) hocc

theorem findSub_eq_of_occurs_min {sep s : Str} {j : Nat} (hsep : sep ≠ [])
    (hocc : occursAt sep s j) (hmin : ∀ k, k < j → ¬ occursAt sep s k) :
    findSub sep s = some j := by
  obtain ⟨i, hi, hij⟩ := findSub_complete hsep hocc
  rcases Nat.lt_or_ge i j with hlt | hge
  · exact absurd (findSub_occurs hi) (hmin i hlt)
  · have : i = j := by omega
    rw [hi, this]

theorem occursAt_of_take {sep s : Str} {k m : Nat}
    (h : occursAt sep (s.take m) k) : occursAt sep s k := by
  simp only [occursAt, List.drop_take] at h
  exact h.trans ⟨_, List.take_append_drop _ _⟩

theorem occursAt_take {sep s : Str} {k m : Nat}
    (hlen : k + sep.length ≤ m) (h : occursAt sep s k) :
    occursAt sep (s.take m) k := by
  simp only [occursAt, List.drop_take]
  exact List.prefix_take_iff.mpr ⟨h, by omega⟩

/-- There is no occurrence of `sep` strictly before its first occurrence. -/
theorem findSub_take_none {sep s : Str} {i : Nat} (hsep : sep ≠ [])
    (h : findSub sep s = some i) : findSub sep (s.take i) = none := by
  cases hfs : findSub sep (s.take i) with
  | none => rfl
  | some j =>
    have hocc := findSub_occurs hfs
    have hle := occursAt_add_length_le hsep hocc
    have hpos : 0 < sep.length := List.length_pos.mpr hsep
    have hjlt : j < i := by
      have : (s.take i).length ≤ i := by
        simp [List.length_take]
      omega
    exact absurd (occursAt_of_take hocc) (findSub_min h j hjlt)

theorem crlf_ne_nil : crlf ≠ [] := by decide

theorem crlf2_ne_nil : crlf2 ≠ [] := by decide

/-- A CRLF CRLF occurrence starts with a CRLF occurrence. -/
theorem occursAt_crlf_of_crlf2 {s : Str} {i : Nat} (h : occursAt crlf2 s i) :
    occursAt crlf s i :=
  List.IsPrefix.trans (by decide) h

/-- The part of the input before the first header/body separator contains no
    further separator. -/
theorem findSub_headerBlock_none (raw : Str) :
    findSub crlf2 (headerBlockOf raw) = none := by
  unfold headerBlockOf splitFirst
  cases h : findSub crlf2 raw with
  | none => exact h
  | some i => exact findSub_take_none crlf2_ne_nil h

/-- Taking the header block again is the identity. -/
theorem headerBlockOf_idem (raw : Str) :
    headerBlockOf (headerBlockOf raw) = headerBlockOf raw := by
  conv_lhs => rw [headerBlockOf, splitFirst, findSub_headerBlock_none raw]

theorem interBlockBody_headerBlock (raw : Str) :
    interBlockBody (headerBlockOf raw) = [] := by
  rw [interBlockBody, splitFirst, findSub_headerBlock_none raw]

/-- The first CRLF-separated line of the header block is the first
    CRLF-separated line of the whole input. -/
theorem firstLineOf_headerBlock (raw : Str) :
    firstLineOf (headerBlockOf raw) = firstLineOf raw := by
  unfold headerBlockOf splitFirst
  cases h2 : findSub crlf2 raw with
  | none => rfl
  | some i =>
    have hocc2 : occursAt crlf2 raw i := findSub_occurs h2
    have hocc1i : occursAt crlf raw i := occursAt_crlf_of_crlf2 hocc2
    obtain ⟨j, hj, hjle⟩ := findSub_complete crlf_ne_nil hocc1i
    have hlen2 : crlf.length = 2 := by decide
    unfold firstLineOf splitFirst
    rw [hj]
    by_cases hji : j = i
    · subst hji
      rw [findSub_take_none crlf_ne_nil hj]
    · have hjlt : j < i := Nat.lt_of_le_of_ne hjle hji
      have hj2 : j + crlf.length ≤ i := by
        by_contra hcon
        have hi_eq : i = j + 1 := by omega
        obtain ⟨t, ht⟩ := findSub_occurs hj
        obtain ⟨u, hu⟩ := hocc2
        have e0 : List.drop 1 (raw.drop j) = '\n' :: t := by
          rw [← ht]; rfl
        have e1 : raw.drop (j + 1) = '\n' :: t := by
          rw [← List.drop_drop 1 j raw]
          exact e0
        have e2 : raw.drop i = '\r' :: ('\n' :: ('\r' :: ('\n' :: u))) := by
          rw [← hu]; rfl
        rw [hi_eq, e1] at e2
        cases e2
      have hocc_take : occursAt crlf (raw.take i) j :=
        occursAt_take hj2 (findSub_occurs hj)
      have hmin_take : ∀ k, k < j → ¬ occursAt crlf (raw.take i) k := by
        intro k hk hocc_k
        exact findSub_min hj k hk (occursAt_of_take hocc_k)
      rw [findSub_eq_of_occurs_min crlf_ne_nil hocc_take hmin_take]
      simp [List.take_take, Nat.min_eq_left (Nat.le_of_lt hjlt)]

/-- A fuelled split never produces the empty list. -/
theorem goSplitF_ne_nil (sep : Str) (f : Nat) (s : Str) : goSplitF sep f s ≠ [] := by
  cases f with
  | zero => simp [goSplitF]
  | succ f =>
    simp only [goSplitF]
    cases findSub sep s <;> simp

/-- The first component of a Go split is the part before the first
    occurrence of the separator. -/
theorem goSplit_headD (sep s : Str) :
    (goSplit sep s).headD ([] : Str)
      = match splitFirst sep s with
        | none => s
        | some pr => pr.1 := by
  unfold goSplit splitFirst
  simp only [goSplitF]
  cases h : findSub sep s <;> simp

/-- The second component of a Go split is the segment between the first and
    the second occurrence of the separator (to the end when there is no
    second occurrence), and is absent when there is no first occurrence. -/
theorem goSplit_second (sep s : Str) (hsep : sep ≠ []) :
    ((goSplit sep s).drop 1).headD ([] : Str)
      = match splitFirst sep s with
        | none => []
        | some pr =>
          match splitFirst sep pr.2 with
          | none => pr.2
          | some pr2 => pr2.1 := by
  unfold goSplit splitFirst
  simp only [goSplitF]
  cases h : findSub sep s with
  | none => simp
  | some i =>
    have hle := occursAt_add_length_le hsep (findSub_occurs h)
    have hpos : 0 < sep.length := List.length_pos.mpr hsep
    obtain ⟨n, hn⟩ : ∃ n, s.length = n + 1 := ⟨s.length - 1, by omega⟩
    rw [hn]
    simp only [goSplitF]
    cases h2 : findSub sep (s.drop (i + sep.length)) <;> simp

/-- parseRequest, re-expressed through the spec-side observables: validity
    is decided by the token count of the first line of the input, method and
    path are the first two tokens, headers come from the remaining lines of
    the header block, and the body is the segment between the first and
    second separators. -/
theorem parseRequest_eq (raw : Str) :
    parseRequest raw =
      if (requestTokens raw).length < 2 then none
      else some
        { method := (requestTokens raw).headD [],
          path := ((requestTokens raw).drop 1).headD [],
          headers := parseHeaderLines ((goSplit crlf (headerBlockOf raw)).drop 1),
          body := interBlockBody raw } := by
  have hhb : (goSplit crlf2 raw).headD [] = headerBlockOf raw := by
    rw [goSplit_headD]; rfl
  have hbody : ((goSplit crlf2 raw).drop 1).headD [] = interBlockBody raw := by
    rw [goSplit_second crlf2 raw crlf2_ne_nil]; rfl
  have hfl : (goSplit crlf ((goSplit crlf2 raw).headD [])).headD [] = firstLineOf raw := by
    rw [hhb, goSplit_headD]
    show firstLineOf (headerBlockOf raw) = firstLineOf raw
    exact firstLineOf_headerBlock raw
  simp only [parseRequest]
  rw [hfl, hbody, hhb]
  rfl

/-- A Go split has a second component exactly when the separator occurs. -/
theorem two_le_goSplit_length {sep s : Str} (_hsep : sep ≠ []) :
    2 ≤ (goSplit sep s).length ↔ (findSub sep s).isSome = true := by
  unfold goSplit
  simp only [goSplitF]
  cases h : findSub sep s with
  | none => simp
  | some i =>
    simp only [List.length_cons, Option.isSome_some, iff_true]
    have h1 := List.length_pos.mpr (goSplitF_ne_nil sep s.length (s.drop (i + sep.length)))
    omega

/-- When a string begins with the separator, the first occurrence is at
    index zero. -/
theorem findSub_zero_of_startsWith {sep s : Str} (hsep : sep ≠ [])
    (h : sep.isPrefixOf s = true) : findSub sep s = some 0 := by
  cases s with
  | nil =>
    exfalso
    have := (List.isPrefixOf_iff_prefix.mp h).length_le
    simp only [List.length_nil, Nat.le_zero] at this
    exact hsep (List.eq_nil_of_length_eq_zero this)
  | cons c cs => simp [findSub, h]

theorem trimPref_append (p t : Str) : trimPref (p ++ t) p = t := by
  unfold trimPref
  rw [if_pos, List.drop_left]
  exact List.isPrefixOf_iff_prefix.mpr (List.prefix_append p t)

theorem mapGet?_some_mem {m : List (Str × Str)} {k v : Str}
    (h : mapGet? m k = some v) : (k, v) ∈ m := by
  induction m with
  | nil => cases h
  | cons kv rest ih =>
    obtain ⟨k1, v1⟩ := kv
    simp only [mapGet?] at h
    split at h
    · next heq =>
      cases h
      have heq1 : k1 = k := heq
      subst heq1
      exact List.mem_cons_self _ _
    · exact List.mem_cons_of_mem _ (ih h)

theorem mapGet?_mapSet_ne {m : List (Str × Str)} {k k' v' : Str} (hne : k' ≠ k) :
    mapGet? (mapSet m k' v') k = mapGet? m k := by
  induction m with
  | nil =>
    simp only [mapSet, mapGet?]
    rw [if_neg]
    intro hc
    exact hne hc
  | cons kv rest ih =>
    simp only [mapSet]
    split
    · next heq =>
      simp only [mapGet?]
      rw [if_neg (fun hc => hne hc), if_neg (fun hc => hne (heq.symm.trans hc))]
    · simp only [mapGet?, ih]

/-- CORS defaulting never touches the Content-Length key. -/
theorem mapGet?_addCORS_CL (headers : List (Str × Str)) :
    mapGet? (addCORSDefaults headers) (gs "Content-Length")
      = mapGet? headers (gs "Content-Length") := by
  simp only [addCORSDefaults]
  split
  · split
    · split
      · rfl
      · rw [mapGet?_mapSet_ne (by decide)]
    · split
      · rw [mapGet?_mapSet_ne (by decide)]
      · rw [mapGet?_mapSet_ne (by decide), mapGet?_mapSet_ne (by decide)]
  · split
    · split
      · rw [mapGet?_mapSet_ne (by decide)]
      · rw [mapGet?_mapSet_ne (by decide), mapGet?_mapSet_ne (by decide)]
    · split
      · rw [mapGet?_mapSet_ne (by decide), mapGet?_mapSet_ne (by decide)]
      · rw [mapGet?_mapSet_ne (by decide), mapGet?_mapSet_ne (by decide),
            mapGet?_mapSet_ne (by decide)]

/-- A one-character suffix test is a last-element test. -/
theorem isSuffixOf_singleton_getLast (c : Char) (p : Str) :
    (([c] : Str).isSuffixOf p) = decide (p.getLast? = some c) := by
  by_cases h : p.getLast? = some c
  · obtain ⟨ys, hy⟩ := List.getLast?_eq_some_iff.mp h
    subst hy
    rw [decide_eq_true h]
    exact List.isSuffixOf_iff_suffix.mpr ⟨ys, rfl⟩
  · rw [decide_eq_false h]
    by_contra hb
    have hs : ([c] : Str) <:+ p :=
      List.isSuffixOf_iff_suffix.mp (by simpa using hb)
    obtain ⟨t, ht⟩ := hs
    exact h (List.getLast?_eq_some_iff.mpr ⟨t, ht.symm⟩)

/-- ServeRequest is first-match dispatch over the table in order. -/
theorem serveRequest_eq_specDispatch (routes : List Route) (req : HTTPRequest)
    (env : Env) : serveRequest routes req env = specDispatch routes req env := by
  induction routes with
  | nil => rfl
  | cons rt rest ih =>
    show serveRequest (rt :: rest) req env = specDispatch (rt :: rest) req env
    have hpred : specRouteMatch req rt = (rt.method == req.method && routeMatches rt req.path) := rfl
    simp only [serveRequest, specDispatch, List.find?]
    rw [← hpred]
    cases h : specRouteMatch req rt with
    | true => simp
    | false => simpa [specDispatch] using ih

/-- A request whose method is the empty string matches no route of the
    program's table, so the 404 fallback answers. -/
theorem serveRequest_404_of_empty_method (req : HTTPRequest) (env : Env)
    (h : req.method = []) : serveRequest mainRoutes req env = resp404 := by
  obtain ⟨m, p, hs, b⟩ := req
  have hm : m = [] := h
  subst hm
  have e1 : (gs "GET" == ([] : Str)) = false := rfl
  have e2 : (gs "POST" == ([] : Str)) = false := rfl
  have e3 : (gs "OPTIONS" == ([] : Str)) = false := rfl
  simp [mainRoutes, register, serveRequest, e1, e2, e3]

/-- C2: for every parsed request, the router scans the route table in
    registration order and dispatches to the handler of the first route
    whose method equals the request method under string equality and whose
    pattern matches the path (full equality for exact routes, string prefix
    for prefix routes, a route being a prefix route exactly when its
    registered pattern ends in a slash); when no route matches, the fixed
    404 response with empty body is serialized and sent. -/
theorem c2_router_first_match (routes : List Route) (req : HTTPRequest) (env : Env)
    (m p : Str) (h : Handler) :
    serveRequest routes req env = specDispatch routes req env
    ∧ register routes m p h
        = routes ++ [{ method := m, path := p, handler := h,
                       isPref := decide (p.getLast? = some '/') }]
    ∧ ((routes.find? (specRouteMatch req)).isNone = true →
        serveWire routes req env = sendResponse (gs "404 Not Found") [] [] req) := by
  refine ⟨serveRequest_eq_specDispatch routes req env, ?_, ?_⟩
  · unfold register
    have hgs : (gs "/" : Str) = ['/'] := rfl
    rw [hgs, isSuffixOf_singleton_getLast]
  · intro hnone
    unfold serveWire
    rw [serveRequest_eq_specDispatch]
    unfold specDispatch
    rw [Option.isNone_iff_eq_none.mp hnone]
    rfl

theorem c2_router_first_match_witness :
    serveWire mainRoutes
        { method := gs "BREW", path := gs "/", headers := [], body := [] } envDemo
      = sendResponse (gs "404 Not Found") [] []
          { method := gs "BREW", path := gs "/", headers := [], body := [] } :=
  (c2_router_first_match mainRoutes
    { method := gs "BREW", path := gs "/", headers := [], body := [] }
    envDemo (gs "x") (gs "x/") rootHandler).2.2 (by decide)

/-- C4: in the connection loop, after a response is sent the connection is
    closed iff the request's Connection header value equals exactly
    "close", otherwise the loop returns to reading; a zero-length receive
    or an end-of-stream signal moves directly to Closed without sending
    anything (as does a read error). -/
theorem c4_connection_lifecycle (routes : List Route) (env : Env) :
    connStep routes env RecvEvent.eofSig = ([], ConnState.closed)
    ∧ connStep routes env RecvEvent.errSig = ([], ConnState.closed)
    ∧ connStep routes env (RecvEvent.data []) = ([], ConnState.closed)
    ∧ ∀ raw req, raw ≠ [] → parseRequest raw = some req →
        (connStep routes env (RecvEvent.data raw)).1 = [serveWire routes req env]
        ∧ ((connStep routes env (RecvEvent.data raw)).2 = ConnState.closed
            ↔ mapGet? req.headers (gs "Connection") = some (gs "close"))
        ∧ ((connStep routes env (RecvEvent.data raw)).2 = ConnState.reading
            ↔ mapGet? req.headers (gs "Connection") ≠ some (gs "close")) := by
  refine ⟨rfl, rfl, rfl, ?_⟩
  intro raw req hraw hparse
  simp only [connStep, if_neg hraw, hparse]
  refine ⟨trivial, ?_, ?_⟩
  · by_cases hc : mapGet? req.headers (gs "Connection") = some (gs "close") <;>
      simp [hc]
  · by_cases hc : mapGet? req.headers (gs "Connection") = some (gs "close") <;>
      simp [hc]

theorem c4_connection_lifecycle_witness :
    (connStep mainRoutes envDemo
        (RecvEvent.data (gs "GET / HTTP/1.1\r\nConnection: close\r\n\r\n"))).2
      = ConnState.closed :=
  (((c4_connection_lifecycle mainRoutes envDemo).2.2.2
      (gs "GET / HTTP/1.1\r\nConnection: close\r\n\r\n")
      { method := gs "GET", path := gs "/",
        headers := [(gs "Connection", gs "close")], body := [] }
      (by decide) (by decide)).2.1).mpr (by decide)

/-- C8: in a loop iteration whose parse fails, no response bytes are
    written, and the loop state returns to reading on the same
    connection. -/
theorem c8_malformed_silently_dropped (routes : List Route) (env : Env) (raw : Str)
    (hraw : raw ≠ []) (hparse : parseRequest raw = none) :
    connStep routes env (RecvEvent.data raw) = ([], ConnState.reading) := by
  simp only [connStep, if_neg hraw, hparse]

theorem c8_malformed_silently_dropped_witness :
    connStep mainRoutes envDemo (RecvEvent.data (gs "junk\r\n\r\n"))
      = ([], ConnState.reading) :=
  c8_malformed_silently_dropped mainRoutes envDemo (gs "junk\r\n\r\n")
    (by decide) (by decide)

/-- C7: the parser rejects an input exactly when the first CRLF-separated
    line, split on single spaces, has fewer than two tokens; otherwise it
    produces a fully parsed request whose method and path are the first two
    tokens — no partially-valid request exists. -/
theorem c7_request_line_validation (raw : Str) :
    (parseRequest raw = none ↔ (requestTokens raw).length < 2)
    ∧ ∀ req, parseRequest raw = some req →
        req.method = (requestTokens raw).headD []
        ∧ req.path = ((requestTokens raw).drop 1).headD [] := by
  rw [parseRequest_eq raw]
  constructor
  · split
    · next hlt => simp [hlt]
    · next hlt => simp [hlt]
  · intro req hreq
    split at hreq
    · cases hreq
    · cases hreq
      exact ⟨rfl, rfl⟩

theorem c7_request_line_validation_witness :
    parseRequest (gs "GET /x HTTP/1.1\r\n\r\n")
        = some { method := gs "GET", path := gs "/x", headers := [], body := [] }
    ∧ gs "GET" = (requestTokens (gs "GET /x HTTP/1.1\r\n\r\n")).headD []
    ∧ gs "/x" = ((requestTokens (gs "GET /x HTTP/1.1\r\n\r\n")).drop 1).headD [] := by
  refine ⟨by decide, ?_, ?_⟩
  · exact ((c7_request_line_validation (gs "GET /x HTTP/1.1\r\n\r\n")).2
      { method := gs "GET", path := gs "/x", headers := [], body := [] } (by decide)).1
  · exact ((c7_request_line_validation (gs "GET /x HTTP/1.1\r\n\r\n")).2
      { method := gs "GET", path := gs "/x", headers := [], body := [] } (by decide)).2

/-- C3 (amended): the parser takes everything before the first CRLF CRLF
    as the header block (method, path and headers are parsed from it
    alone), but as body it takes only the segment between the first and the
    second occurrence of CRLF CRLF (to the end of input when there is no
    second occurrence) — not the entire remainder; when the separator is
    absent the body is empty. -/
theorem c3_split_at_separator (raw : Str) (req : HTTPRequest)
    (h : parseRequest raw = some req) :
    req.body = interBlockBody raw
    ∧ parseRequest (headerBlockOf raw)
        = some { method := req.method, path := req.path,
                 headers := req.headers, body := [] } := by
  rw [parseRequest_eq raw] at h
  split at h
  · cases h
  · next hlen =>
    cases h
    refine ⟨rfl, ?_⟩
    rw [parseRequest_eq (headerBlockOf raw)]
    have htok : requestTokens (headerBlockOf raw) = requestTokens raw := by
      unfold requestTokens
      rw [firstLineOf_headerBlock]
    rw [htok, headerBlockOf_idem, interBlockBody_headerBlock, if_neg hlen]

theorem c3_split_at_separator_witness :
    parseRequest (gs "POST /files/a HTTP/1.1\r\nH: v\r\n\r\nDATA")
        = some { method := gs "POST", path := gs "/files/a",
                 headers := [(gs "H", gs "v")], body := gs "DATA" }
    ∧ (gs "DATA" : Str)
        = interBlockBody (gs "POST /files/a HTTP/1.1\r\nH: v\r\n\r\nDATA")
    ∧ parseRequest (headerBlockOf (gs "POST /files/a HTTP/1.1\r\nH: v\r\n\r\nDATA"))
        = some { method := gs "POST", path := gs "/files/a",
                 headers := [(gs "H", gs "v")], body := [] } := by
  have h := c3_split_at_separator (gs "POST /files/a HTTP/1.1\r\nH: v\r\n\r\nDATA")
    { method := gs "POST", path := gs "/files/a",
      headers := [(gs "H", gs "v")], body := gs "DATA" } (by decide)
  exact ⟨by decide, h.1, h.2⟩

theorem c3_split_at_separator_counterexample :
    parseRequest (gs "GET / HTTP/1.1\r\n\r\nB\r\n\r\nC")
        = some { method := gs "GET", path := gs "/", headers := [], body := gs "B" }
    ∧ remainderAfterFirst (gs "GET / HTTP/1.1\r\n\r\nB\r\n\r\nC") = gs "B\r\n\r\nC"
    ∧ (gs "B" : Str) ≠ gs "B\r\n\r\nC" := by decide

/-- C10: any input whose first CRLF-separated line contains a space parses
    as valid (empty tokens count as present); in particular a request line
    beginning with a space yields a request whose method is the empty
    string, which matches no registered route and always receives the 404
    fallback. -/
theorem c10_empty_method_never_matches (raw : Str) :
    (strContains (firstLineOf raw) (gs " ") = true → (parseRequest raw).isSome = true)
    ∧ ((gs " ").isPrefixOf (firstLineOf raw) = true →
        ∃ req, parseRequest raw = some req ∧ req.method = []
          ∧ ∀ env, serveRequest mainRoutes req env = resp404) := by
  have hspace : (gs " " : Str) ≠ [] := by decide
  constructor
  · intro hsp
    rw [parseRequest_eq raw, if_neg]
    · simp
    · have hs : (findSub (gs " ") (firstLineOf raw)).isSome = true := hsp
      have h2 := (two_le_goSplit_length hspace).mpr hs
      unfold requestTokens
      omega
  · intro hpre
    have hfind : findSub (gs " ") (firstLineOf raw) = some 0 :=
      findSub_zero_of_startsWith hspace hpre
    have hs : (findSub (gs " ") (firstLineOf raw)).isSome = true := by
      rw [hfind]; rfl
    have h2 := (two_le_goSplit_length hspace).mpr hs
    have hm : (requestTokens raw).headD [] = [] := by
      unfold requestTokens
      rw [goSplit_headD]
      simp [splitFirst, hfind]
    rw [parseRequest_eq raw, if_neg (by unfold requestTokens; omega)]
    exact ⟨_, rfl, hm, fun env => serveRequest_404_of_empty_method _ env hm⟩

theorem c10_empty_method_never_matches_witness :
    ((parseRequest (gs " /x HTTP/1.1\r\n\r\n")).isSome = true)
    ∧ (∃ req, parseRequest (gs " /x HTTP/1.1\r\n\r\n") = some req ∧ req.method = []
        ∧ ∀ env, serveRequest mainRoutes req env = resp404) :=
  ⟨(c10_empty_method_never_matches (gs " /x HTTP/1.1\r\n\r\n")).1 (by decide),
   (c10_empty_method_never_matches (gs " /x HTTP/1.1\r\n\r\n")).2 (by decide)⟩

/-- C6 (amended): every serialized response carries a computed
    Content-Length line whose value is the exact byte length of the body;
    a Content-Length entry supplied by the caller in the header mapping is
    NOT removed — it is serialized as its own additional header line. -/
theorem c6_content_length_always_computed (status : Str)
    (headers : List (Str × Str)) (body : Str) (req : HTTPRequest) :
    (gs "Content-Length: " ++ natToStr (golen body))
        ∈ responseLines status headers body req
    ∧ (∀ v, mapGet? headers (gs "Content-Length") = some v →
        (gs "Content-Length: " ++ v) ∈ responseLines status headers body req) := by
  constructor
  · unfold responseLines
    apply List.mem_append_left
    apply List.mem_append_right
    exact List.mem_singleton.mpr rfl
  · intro v hv
    have hmem : ((gs "Content-Length" : Str), v) ∈ addCORSDefaults headers :=
      mapGet?_some_mem (by rw [mapGet?_addCORS_CL]; exact hv)
    have hmem2 := List.mem_map_of_mem
      (fun kv : Str × Str => kv.1 ++ gs ": " ++ kv.2) hmem
    have heq : (gs "Content-Length" : Str) ++ gs ": " ++ v
        = gs "Content-Length: " ++ v := rfl
    unfold responseLines
    apply List.mem_append_left
    apply List.mem_append_left
    apply List.mem_append_right
    rw [← heq]
    exact hmem2

theorem c6_content_length_always_computed_witness :
    (gs "Content-Length: 2") ∈ responseLines (gs "200 OK")
        [(gs "Content-Length", gs "999")] (gs "ab")
        { method := [], path := [], headers := [], body := [] }
    ∧ (gs "Content-Length: 999") ∈ responseLines (gs "200 OK")
        [(gs "Content-Length", gs "999")] (gs "ab")
        { method := [], path := [], headers := [], body := [] } :=
  ⟨(c6_content_length_always_computed (gs "200 OK")
      [(gs "Content-Length", gs "999")] (gs "ab")
      { method := [], path := [], headers := [], body := [] }).1,
   (c6_content_length_always_computed (gs "200 OK")
      [(gs "Content-Length", gs "999")] (gs "ab")
      { method := [], path := [], headers := [], body := [] }).2
      (gs "999") (by decide)⟩

theorem c6_content_length_counterexample :
    (gs "Content-Length: 999") ∈ responseLines (gs "200 OK")
        [(gs "Content-Length", gs "999")] (gs "ab")
        { method := [], path := [], headers := [], body := [] }
    ∧ (gs "Content-Length: 999") <:+: sendResponse (gs "200 OK")
        [(gs "Content-Length", gs "999")] (gs "ab")
        { method := [], path := [], headers := [], body := [] }
    ∧ (gs "999" : Str) ≠ natToStr (golen (gs "ab")) := by decide

/-- C9: for a GET of /files/NAME the handler answers 200 with
    application/octet-stream and the raw file bytes when the read of the
    resolved path succeeds and 404 with empty body whenever it fails; for a
    POST it hands the entire parsed request body to the write of the
    resolved path and answers 201 with empty body on success, 500 with
    empty body on any write failure. -/
theorem c9_file_handler_statuses (env : Env) (req : HTTPRequest) (name : Str)
    (hpath : req.path = gs "/files/" ++ name) :
    (∀ data, env.readFile (filepathJoin env.dir name) = some data →
        getFileHandler req env
          = { status := gs "200 OK",
              headers := [(gs "Content-Type", gs "application/octet-stream")],
              body := data })
    ∧ (env.readFile (filepathJoin env.dir name) = none →
        getFileHandler req env
          = { status := gs "404 Not Found", headers := [], body := [] })
    ∧ (env.writeOk (filepathJoin env.dir name) req.body = true →
        createFileHandler req env
          = { status := gs "201 Created", headers := [], body := [] })
    ∧ (env.writeOk (filepathJoin env.dir name) req.body = false →
        createFileHandler req env
          = { status := gs "500 Internal Server Error", headers := [], body := [] }) := by
  have htrim : trimPref req.path (gs "/files/") = name := by
    rw [hpath]
    exact trimPref_append _ _
  refine ⟨?_, ?_, ?_, ?_⟩
  · intro data hread
    simp only [getFileHandler, htrim, hread]
  · intro hread
    simp only [getFileHandler, htrim, hread]
  · intro hw
    simp only [createFileHandler, htrim, hw, if_true]
  · intro hw
    simp only [createFileHandler, htrim, hw, Bool.false_eq_true, if_false]

theorem c9_file_handler_statuses_witness :
    getFileHandler
        { method := gs "GET", path := gs "/files/f.txt", headers := [], body := [] }
        envSrv
      = { status := gs "200 OK",
          headers := [(gs "Content-Type", gs "application/octet-stream")],
          body := gs "abc" }
    ∧ createFileHandler
        { method := gs "POST", path := gs "/files/new.txt", headers := [],
          body := gs "hi" } envSrv
      = { status := gs "201 Created", headers := [], body := [] } :=
  ⟨(c9_file_handler_statuses envSrv
      { method := gs "GET", path := gs "/files/f.txt", headers := [], body := [] }
      (gs "f.txt") (by decide)).1 (gs "abc") (by decide),
   (c9_file_handler_statuses envSrv
      { method := gs "POST", path := gs "/files/new.txt", headers := [],
        body := gs "hi" } (gs "new.txt") (by decide)).2.2.1 (by decide)⟩

/-- C5 (code bug): the echo handler itself behaves exactly as claimed —
    200, text/plain, body equal to the path minus the /echo/ prefix, or the
    compressed body with Content-Encoding gzip when Accept-Encoding
    mentions gzip — but a GET /echo/hello never reaches it: the route
    (GET, "/") is registered first and, because its pattern ends in a
    slash, it is a prefix route that captures every GET path, so the
    server's response to GET /echo/hello is the root handler's empty-body
    200, not the echo. -/
theorem c5_echo_shadowed_by_root_route :
    echoHandler
        { method := gs "GET", path := gs "/echo/hello", headers := [], body := [] }
        envDemo
      = { status := gs "200 OK",
          headers := [(gs "Content-Type", gs "text/plain")], body := gs "hello" }
    ∧ echoHandler
        { method := gs "GET", path := gs "/echo/hello",
          headers := [(gs "Accept-Encoding", gs "gzip")], body := [] } envTag
      = { status := gs "200 OK",
          headers := [(gs "Content-Type", gs "text/plain"),
                      (gs "Content-Encoding", gs "gzip")],
          body := envTag.gzipC (gs "hello") }
    ∧ serveRequest mainRoutes
        { method := gs "GET", path := gs "/echo/hello", headers := [], body := [] }
        envDemo
      = { status := gs "200 OK", headers := [], body := [] }
    ∧ (serveRequest mainRoutes
        { method := gs "GET", path := gs "/echo/hello", headers := [], body := [] }
        envDemo).body ≠ gs "hello" := by decide

/-- C1 (code bug): filepath.Join cleans the joined path lexically but does
    not sandbox it: for the request path /files/../../etc/passwd under
    root /tmp/data the handlers resolve /etc/passwd, which does not lie
    under the root; a file system granting that path makes the GET handler
    serve its contents, and a POST dispatched through the real route table
    writes the request body to it. -/
theorem c1_join_escapes_root :
    filepathJoin (gs "/tmp/data")
        (trimPref (gs "/files/../../etc/passwd") (gs "/files/")) = gs "/etc/passwd"
    ∧ ((gs "/tmp/data").isPrefixOf (gs "/etc/passwd")) = false
    ∧ getFileHandler
        { method := gs "GET", path := gs "/files/../../etc/passwd",
          headers := [], body := [] } envLeak
      = { status := gs "200 OK",
          headers := [(gs "Content-Type", gs "application/octet-stream")],
          body := gs "SECRET" }
    ∧ serveRequest mainRoutes
        { method := gs "POST", path := gs "/files/../../etc/passwd",
          headers := [], body := gs "pwn" } envLeak
      = { status := gs "201 Created", headers := [], body := [] } := by decide

/- ===================  Evaluation sanity checks  ========================== -/

theorem sanity_natToStr : natToStr 0 = gs "0" ∧ natToStr 5 = gs "5"
    ∧ natToStr 207 = gs "207" := by decide

theorem sanity_filepathClean :
    filepathClean (gs "/tmp/data/../../etc/passwd") = gs "/etc/passwd"
    ∧ filepathClean (gs "a//b/./c/") = gs "a/b/c"
    ∧ filepathClean (gs "../../x") = gs "../../x"
    ∧ filepathClean (gs "") = gs "."
    ∧ filepathClean (gs "/") = gs "/"
    ∧ filepathJoin (gs "/srv") (gs "f.txt") = gs "/srv/f.txt"
    ∧ filepathJoin (gs ".") (gs "f.txt") = gs "f.txt" := by decide

theorem sanity_goSplit :
    goSplit (gs "\r\n") (gs "a\r\nb\r\nc") = [gs "a", gs "b", gs "c"]
    ∧ goSplit (gs " ") (gs "GET / HTTP/1.1") = [gs "GET", gs "/", gs "HTTP/1.1"]
    ∧ goSplit (gs "x") (gs "abc") = [gs "abc"]
    ∧ trimPref (gs "/echo/hello") (gs "/echo/") = gs "hello"
    ∧ strContains (gs "foo, gzip") (gs "gzip") = true
    ∧ golen (gs "hello") = 5 := by decide

theorem sanity_parseRequest :
    parseRequest (gs "GET /echo/hi HTTP/1.1\r\nHost: x\r\nConnection: close\r\n\r\n")
      = some { method := gs "GET", path := gs "/echo/hi",
               headers := [(gs "Host", gs "x"), (gs "Connection", gs "close")],
               body := [] }
    ∧ parseRequest (gs "NOSPACE\r\n\r\n") = none := by decide
